import Mathlib

/-!
Verification of the spotify-bot backend core against its specification.

The development shallowly embeds the three decision procedures of the
backend:

* the keyword fallback of the intent engine
  (backend/intent_engine.py, IntentEngine._parse_with_keywords),
* the /play playback-mode dispatcher and its candidate scorer
  (backend/main.py, play_track / _resolve_play_query / _score_track),
* the taste-profile recommender
  (backend/recommender.py, Recommender).

Strings are modelled as Lean strings, processed as lists of characters;
Python integers as Int/Nat; floating point arithmetic as exact real
arithmetic.  Regular-expression operations of the source are embedded as
the concrete word-boundary / prefix matching functions they denote on the
pattern sets used by the code.
-/

namespace SpotifyBot

/-! ## Character and string helpers (Python str semantics, ASCII) -/

/-- Lower-case an ASCII character, `str.lower` on the ASCII range. -/
def lowerChar (c : Char) : Char :=
  if 'A' ≤ c ∧ c ≤ 'Z' then Char.ofNat (c.toNat + 32) else c

/-- Python whitespace characters recognised by `str.strip` / `\s` (ASCII). -/
def isPyWS (c : Char) : Bool :=
  c = ' ' ∨ c = '\t' ∨ c = '\n' ∨ c = '\r' ∨ c = '\x0b' ∨ c = '\x0c'

/-- Lower-case a list of characters. -/
def lowerL (l : List Char) : List Char := l.map lowerChar

/-- `str.strip()`: drop whitespace from both ends. -/
def trimL (l : List Char) : List Char :=
  ((l.dropWhile isPyWS).reverse.dropWhile isPyWS).reverse

/-- A regex word character `\w` (ASCII): letter, digit or underscore. -/
def isWordChar (c : Char) : Bool :=
  ('a' ≤ c ∧ c ≤ 'z') ∨ ('A' ≤ c ∧ c ≤ 'Z') ∨ ('0' ≤ c ∧ c ≤ '9') ∨ c = '_'

/-- `\b` boundary next to a pattern: no neighbouring character, or a
non-word neighbouring character. -/
def boundaryOk : Option Char → Bool
  | none => true
  | some c => ¬ isWordChar c

/-- `pat` occurs literally at the head of `text`. -/
def leadsWith : List Char → List Char → Bool
  | [], _ => true
  | _ :: _, [] => false
  | a :: as, b :: bs => a = b && leadsWith as bs

/-- The pattern matches at the current position with `\b` boundaries on
both sides; `prev` is the character just before the position. -/
def matchHere (pat text : List Char) (prev : Option Char) : Bool :=
  leadsWith pat text && boundaryOk prev && boundaryOk (text.drop pat.length).head?

/-- Scan `text` for a `\b pat \b` occurrence, `prev` being the character
before the scan position. -/
def containsWordFrom (pat : List Char) : Option Char → List Char → Bool
  | prev, [] => matchHere pat [] prev
  | prev, c :: rest => matchHere pat (c :: rest) prev || containsWordFrom pat (some c) rest

/-- `re.search(r"\b pat \b", text)` for a literal pattern. -/
def containsWord (pat text : List Char) : Bool := containsWordFrom pat none text

/-- `re.search(r"\b(p1|p2|...)\b", text, re.I)`: the text is searched
lower-cased, patterns are stored lower-case. -/
def anyWordIn (phrases : List String) (lowText : List Char) : Bool :=
  phrases.any fun p => containsWord p.toList lowText

/-- Substring test, `needle in hay` on Python strings. -/
def containsSub (needle : List Char) : List Char → Bool
  | [] => leadsWith needle []
  | c :: rest => leadsWith needle (c :: rest) || containsSub needle rest

/-- Split on runs of separator characters, dropping empty pieces
(`str.split()` when `sep` is whitespace, `re.findall("[^,]+", s)` when
`sep` is the comma). -/
def splitRunsAux (sep : Char → Bool) : List Char → List Char → List (List Char)
  | [], acc => if acc = [] then [] else [acc.reverse]
  | c :: rest, acc =>
    if sep c then
      (if acc = [] then splitRunsAux sep rest [] else acc.reverse :: splitRunsAux sep rest [])
    else splitRunsAux sep rest (c :: acc)

def splitRuns (sep : Char → Bool) (l : List Char) : List (List Char) :=
  splitRunsAux sep l []

/-- `str.split()` with no argument: whitespace-separated words. -/
def splitWS (l : List Char) : List (List Char) := splitRuns isPyWS l

/-! ## Intent engine: the keyword fallback

`IntentEngine._parse_with_keywords` of backend/intent_engine.py.  An
intent is the dict `{"action": ..., "query": ..., "extras": ...}`; the
only `extras` key the system reads is `is_mood_or_genre`, so extras are
modelled as the optional value of that key (`none` = key absent). -/

structure Intent where
  action : String
  query : String
  isMoodOrGenre : Option Bool
deriving DecidableEq, Repr

/-- The six actions enumerated by the intent tool schema. -/
def enumeratedActions : List String :=
  ["play_music", "search_music", "get_recommendations",
   "get_current_user", "list_devices", "unknown"]

/-- `_USER_TRIGGERS`. -/
def userTriggerPhrases : List String :=
  ["who am i", "logged in", "my account", "my profile"]

/-- `_DEVICES_TRIGGERS`. -/
def deviceTriggerPhrases : List String :=
  ["device", "devices", "speaker", "player", "where"]

/-- `_RECOMMEND_TRIGGERS`. -/
def recommendTriggerPhrases : List String :=
  ["recommend", "suggest", "similar to", "like", "vibe"]

/-- `_SEARCH_TRIGGERS`. -/
def searchTriggerPhrases : List String :=
  ["search", "find", "look up", "show me", "what is"]

/-- `_PLAY_TRIGGERS`. -/
def playTriggerPhrases : List String :=
  ["play", "put on", "start", "listen to", "queue"]

/-- The mood/genre heuristic token set, with the optional plural
`vibes?` expanded into its two alternatives. -/
def moodTokenPhrases : List String :=
  ["lofi", "lo-fi", "chill", "vibes", "vibe", "study", "focus", "ambient", "background"]

/-- The alternatives of `_STRIP_PREFIX`, in regex order. -/
def stripPhrases : List String :=
  ["play", "put on", "start", "listen to", "queue", "search", "find", "look up",
   "show me", "recommend", "suggest", "something like", "songs like", "music like"]

/-- The anchored match of `_STRIP_PREFIX` on `text`: the first alternative
that is a case-insensitive head of the text and is followed by at least
one whitespace character; returns the remainder after the phrase (the
following whitespace is still attached, the caller strips it). -/
def stripFound (text : List Char) : Option (List Char) :=
  (stripPhrases.map String.toList).findSome? fun p =>
    if leadsWith p (lowerL text) &&
        (match (text.drop p.length).head? with
         | some c => isPyWS c
         | none => false) then
      some (text.drop p.length)
    else none

/-- `_STRIP_PREFIX.sub("", text).strip()`. -/
def stripActionQuery (text : List Char) : List Char :=
  match stripFound text with
  | some rest => trimL rest
  | none => trimL text

/-- The trimmed utterance, the local `text` of `_parse_with_keywords`. -/
def fbText (input : String) : List Char := trimL input.toList

/-- The lower-cased trimmed utterance against which the case-insensitive
trigger regexes are searched. -/
def fbLow (input : String) : List Char := lowerL (fbText input)

/-- Whether one of the phrases occurs word-bounded in the utterance. -/
def hasTrig (phrases : List String) (input : String) : Bool :=
  anyWordIn phrases (fbLow input)

/-- The extras computed by the fallback: `is_mood_or_genre = True` iff a
mood token occurs in the utterance. -/
def fbExtras (input : String) : Option Bool :=
  if hasTrig moodTokenPhrases input then some true else none

/-- `IntentEngine._parse_with_keywords`. -/
def parseWithKeywords (input : String) : Intent :=
  if hasTrig userTriggerPhrases input then ⟨"get_current_user", "", none⟩
  else if hasTrig deviceTriggerPhrases input then ⟨"list_devices", "", none⟩
  else
    let query := stripActionQuery (fbText input)
    let extras := fbExtras input
    if hasTrig recommendTriggerPhrases input then ⟨"get_recommendations", String.mk query, extras⟩
    else if hasTrig searchTriggerPhrases input then ⟨"search_music", String.mk query, extras⟩
    else if hasTrig playTriggerPhrases input then ⟨"play_music", String.mk query, extras⟩
    else ⟨"play_music", String.mk (fbText input), extras⟩

/-! ## Stable descending sort

Python's `sorted(..., key=k, reverse=True)` is a stable sort: descending
in the key, with ties kept in original order.  A stable sort by a key is
the unique permutation sorted in the lexicographic order on
(key descending, original position ascending), which is how it is
modelled: sort the enumerated list in that total order, then forget the
positions. -/

/-- Lexicographic order on (key descending, original index ascending). -/
def keyDescRel {α β : Type} (key : α → β) [LinearOrder β] (a b : ℕ × α) : Prop :=
  key b.2 < key a.2 ∨ (key a.2 = key b.2 ∧ a.1 ≤ b.1)

instance {α β : Type} (key : α → β) [LinearOrder β] : DecidableRel (keyDescRel key) :=
  fun _ _ => inferInstanceAs (Decidable (_ ∨ _))

/-- The enumerated list, sorted in the stable-descending order. -/
def stableSortEnum {α β : Type} (key : α → β) [LinearOrder β] (l : List α) :
    List (ℕ × α) :=
  List.insertionSort (keyDescRel key) l.enum

/-- `sorted(l, key=key, reverse=True)`. -/
def stableSortDesc {α β : Type} (key : α → β) [LinearOrder β] (l : List α) : List α :=
  (stableSortEnum key l).map Prod.snd

/-! ## Data model of the /play dispatcher

Tracks are the dicts produced by `SpotifyClient._format_track`; only the
fields the scorer and the dispatcher read are modelled.  `popularity` is
absent from the dict when Spotify omits it (`none`), and `duration_ms`
can be missing/None as well. -/

structure Track where
  id : String
  name : String
  uri : String
  artists : List String
  durationMs : Option Int
  popularity : Option Int
deriving DecidableEq, Repr

/-- A persisted `ConnectedPlaylist` row, as read by the /play handler. -/
structure ConnectedPlaylist where
  name : String
  uri : String
deriving DecidableEq, Repr

/-! ### Query normalisation and candidate scoring -/

/-- `_resolve_play_query` of backend/main.py. -/
def resolvePlayQuery (intent : Intent) (message : String) : String :=
  let q := String.mk (trimL intent.query.toList)
  if q = "" ∨ intent.action = "unknown" then String.mk (trimL message.toList) else q

/-- `_normalize` inside `play_track`: lower-case, replace "&" by "and",
strip. -/
def pyNormalize (s : String) : List Char :=
  trimL ((lowerL s.toList).flatMap fun c => if c = '&' then ['a', 'n', 'd'] else [c])

/-- The +50 artist bonus test: some artist name, normalised, occurs as a
substring of the normalised query. -/
def artistSubstring (query : String) (t : Track) : Bool :=
  t.artists.any fun a => containsSub (pyNormalize a) (pyNormalize query)

/-- `_score_track` of backend/main.py. -/
def scoreTrack (query : String) (t : Track) : Int :=
  let basePop := t.popularity.getD 0
  let bonus : Int := if artistSubstring query t then 50 else 0
  let bonus := bonus + (if pyNormalize t.name = pyNormalize query then 50 else 0)
  basePop + bonus

/-- `sorted(results, key=_score_track, reverse=True)`. -/
def rankPool (query : String) (pool : List Track) : List Track :=
  stableSortDesc (scoreTrack query) pool

/-! ### The playback-mode dispatcher (`play_track` of backend/main.py)

The external collaborators are inputs: the connected-playlist rows, the
first track search's results, the playlist lookup's result (`none`
modelling a raised exception, which the code converts to an empty list),
and the widening `"<query> mix"` search's results.  The returned
`trackSearches` records which track searches the handler performed, in
order. -/

inductive PlayOutcome where
  | playlistMode (p : ConnectedPlaylist)
  | notFound
  | multiUris (uris : List String)
  | multiPool (pool : List Track)
  | artistMode (primaryArtist : String) (t : Track)
  | trackMode (t : Track)
deriving DecidableEq, Repr

structure PlayEnv where
  connected : List ConnectedPlaylist
  searchResults : List Track
  playlistSearch : Option (List String)
  mixResults : List Track
deriving DecidableEq, Repr

structure PlayResult where
  outcome : PlayOutcome
  trackSearches : List String
deriving DecidableEq, Repr

/-- The connected-playlist lookup:
`lower(name) == query.lower().strip()`, first match. -/
def connectedLookup (connected : List ConnectedPlaylist) (query : String) :
    Option ConnectedPlaylist :=
  connected.find? fun p => lowerL p.name.toList == trimL (lowerL query.toList)

/-- `set(query.lower().split())`. -/
def queryWords (query : String) : List (List Char) := splitWS (lowerL query.toList)

/-- Non-empty intersection of two word sets. -/
def wordOverlap (a b : List (List Char)) : Bool := a.any fun w => b.contains w

/-- `track["artists"][0] if track.get("artists") else ""`. -/
def primaryArtistName (t : Track) : String := t.artists.headD ""

/-- `artist_named`: a word of the top track's primary artist occurs among
the query's words. -/
def artistNamedB (query : String) (t : Track) : Bool :=
  wordOverlap (splitWS (lowerL (primaryArtistName t).toList)) (queryWords query)

/-- A word of the track's name occurs among the query's words. -/
def titleNamedB (query : String) (t : Track) : Bool :=
  wordOverlap (splitWS (lowerL t.name.toList)) (queryWords query)

/-- `results += [t for t in extra if t["id"] not in seen]`. -/
def dedupMerge (pool extra : List Track) : List Track :=
  pool ++ extra.filter (fun t => !((pool.map Track.id).contains t.id))

/-- `len({a for t in pool for a in t.get("artists", [])})`. -/
def distinctArtists (pool : List Track) : ℕ :=
  ((pool.flatMap Track.artists).dedup).length

/-- `play_track` of backend/main.py, from the resolved intent to the
chosen playback mode. -/
def playDispatch (env : PlayEnv) (intent : Intent) (message : String) : PlayResult :=
  let query := resolvePlayQuery intent message
  match connectedLookup env.connected query with
  | some p => ⟨.playlistMode p, []⟩
  | none =>
    match rankPool query env.searchResults with
    | [] => ⟨.notFound, [query]⟩
    | track :: rest =>
      let isMood := intent.isMoodOrGenre.getD false
      let artistNamed := artistNamedB query track
      let doLookup := !artistNamed || isMood
      let uris := if doLookup then env.playlistSearch.getD [] else []
      let widen := doLookup && uris.isEmpty && !isMood
      let pool := if widen then dedupMerge (track :: rest) env.mixResults else track :: rest
      let diverse := widen && decide (2 ≤ distinctArtists pool)
      let searches := if widen then [query, query ++ " mix"] else [query]
      let outcome :=
        if uris.isEmpty = false then PlayOutcome.multiUris uris
        else if diverse then PlayOutcome.multiPool pool
        else if artistNamed && !(titleNamedB query track) then
          PlayOutcome.artistMode (primaryArtistName track) track
        else PlayOutcome.trackMode track
      ⟨outcome, searches⟩

/-! ## Taste-profile recommender (backend/recommender.py)

The feature pipeline: artist TF-IDF (TfidfVectorizer with
`analyzer="word"`, `token_pattern="[^,]+"`, default lower-casing,
`smooth_idf`, l2 row normalisation) concatenated with duration and
popularity min-max scaled over the fit set.  Tokens of an artist document
are the maximal non-comma runs of the lower-cased `", ".join(artists)`;
sklearn raises for an empty fitted vocabulary.  Floats are modelled as
exact reals.  The fitted vectorizer/scaler state is carried explicitly in
`RecState`, mirroring the attributes of the `Recommender` object; note
the scaler is only (re)fitted when the fit set has more than one row, so
a single-track fit leaves the previous scaler state in place, and a
transform with a never-fitted scaler raises and is caught, producing
zero numeric features. -/

/-- `", ".join(t["artists"])`. -/
def artistDoc (t : Track) : String := String.intercalate ", " t.artists

/-- `re.findall("[^,]+", doc.lower())`: the token list of one artist
document. -/
def docTokens (doc : String) : List (List Char) :=
  splitRuns (fun c => c = ',') (lowerL doc.toList)

/-- Lexicographic comparison of token strings (sklearn sorts the fitted
vocabulary). -/
def lexLt : List Char → List Char → Bool
  | [], [] => false
  | [], _ :: _ => true
  | _ :: _, [] => false
  | a :: as, b :: bs => a < b || (a = b && lexLt as bs)

def insLex (x : List Char) : List (List Char) → List (List Char)
  | [] => [x]
  | y :: ys => if lexLt x y then x :: y :: ys else y :: insLex x ys

def sortLex (l : List (List Char)) : List (List Char) := l.foldr insLex []

/-- The fitted vocabulary: sorted distinct tokens of all documents. -/
def fitVocab (tracks : List Track) : List (List Char) :=
  sortLex ((tracks.flatMap fun t => docTokens (artistDoc t)).dedup)

/-- Document frequency of each vocabulary token over the fit set. -/
def fitDf (tracks : List Track) : List ℕ :=
  (fitVocab tracks).map fun v =>
    (tracks.map fun t => docTokens (artistDoc t)).countP fun toks => toks.contains v

/-- `t.get("duration_ms") or 0`. -/
def durVal (t : Track) : ℤ := t.durationMs.getD 0

/-- `t.get("popularity") or 0`. -/
def popVal (t : Track) : ℤ := t.popularity.getD 0

def fitDurMin (tracks : List Track) : ℤ := ((tracks.map durVal).min?).getD 0

def fitDurMax (tracks : List Track) : ℤ := ((tracks.map durVal).max?).getD 0

def fitPopMin (tracks : List Track) : ℤ := ((tracks.map popVal).min?).getD 0

def fitPopMax (tracks : List Track) : ℤ := ((tracks.map popVal).max?).getD 0

/-- Smoothed inverse document frequency,
`ln((1 + n_docs) / (1 + df)) + 1`. -/
noncomputable def idfVal (n df : ℕ) : ℝ := Real.log ((1 + n : ℝ) / (1 + df)) + 1

/-- Sum of squares of a vector. -/
noncomputable def sumsq : List ℝ → ℝ
  | [] => 0
  | x :: xs => x * x + sumsq xs

/-- l2 row normalisation; a zero row is left unchanged (sklearn's
`normalize`). -/
noncomputable def l2normalize (l : List ℝ) : List ℝ :=
  if sumsq l = 0 then l else l.map fun x => x / Real.sqrt (sumsq l)

/-- The l2-normalised TF-IDF vector of one document over a fitted
vocabulary/idf state. -/
noncomputable def tfidfVec (vocab : List (List Char)) (df : List ℕ) (n : ℕ)
    (toks : List (List Char)) : List ℝ :=
  l2normalize ((vocab.zip df).map fun vd => (toks.count vd.1 : ℝ) * idfVal n vd.2)

/-- MinMaxScaler transform of one value: `(x - lo) / (hi - lo)`, with a
zero range divided by 1 instead. -/
noncomputable def scaleVal (lo hi x : ℤ) : ℝ :=
  if hi = lo then ((x - lo : ℤ) : ℝ) else ((x - lo : ℤ) : ℝ) / ((hi - lo : ℤ) : ℝ)

/-- The fitted state of a `Recommender` object: vectorizer vocabulary and
document frequencies, scaler bounds, and the stored profile. -/
structure RecState where
  vocab : List (List Char)
  df : List ℕ
  nDocs : ℕ
  scalerFitted : Bool
  durMin : ℤ
  durMax : ℤ
  popMin : ℤ
  popMax : ℤ
  profile : Option (List ℝ)
  fitted : Bool

/-- A freshly constructed `Recommender()`. -/
def initRecState : RecState :=
  ⟨[], [], 0, false, 0, 0, 0, 0, none, false⟩

/-- `_build_matrix(..., fit=False)` on one candidate: TF-IDF with the
fitted vocabulary plus the scaled numerics; the numeric transform of a
never-fitted scaler raises and is caught, giving zeros. -/
noncomputable def featVec (st : RecState) (t : Track) : List ℝ :=
  tfidfVec st.vocab st.df st.nDocs (docTokens (artistDoc t)) ++
    (if st.scalerFitted then
      [scaleVal st.durMin st.durMax (durVal t), scaleVal st.popMin st.popMax (popVal t)]
    else [0, 0])

/-- One row of `_build_matrix(..., fit=True)`: numeric features are
min-max scaled over the fit set when it has more than one row, and zeroed
otherwise. -/
noncomputable def fitRow (tracks : List Track) (t : Track) : List ℝ :=
  tfidfVec (fitVocab tracks) (fitDf tracks) tracks.length (docTokens (artistDoc t)) ++
    (if 1 < tracks.length then
      [scaleVal (fitDurMin tracks) (fitDurMax tracks) (durVal t),
       scaleVal (fitPopMin tracks) (fitPopMax tracks) (popVal t)]
    else [0, 0])

/-- Elementwise sum of equal-length rows. -/
noncomputable def vecSum : List (List ℝ) → List ℝ
  | [] => []
  | r :: rs => rs.foldl (fun acc v => List.zipWith (fun x y => x + y) acc v) r

/-- `matrix.mean(axis=0)`: the stored taste profile. -/
noncomputable def profileVec (tracks : List Track) : List ℝ :=
  (vecSum (tracks.map (fitRow tracks))).map fun x => x / (tracks.length : ℝ)

/-- The recommender state after a successful `build_profile`; the scaler
fields are refitted only when the set has more than one row. -/
noncomputable def fitState (st : RecState) (tracks : List Track) : RecState where
  vocab := fitVocab tracks
  df := fitDf tracks
  nDocs := tracks.length
  scalerFitted := if 1 < tracks.length then true else st.scalerFitted
  durMin := if 1 < tracks.length then fitDurMin tracks else st.durMin
  durMax := if 1 < tracks.length then fitDurMax tracks else st.durMax
  popMin := if 1 < tracks.length then fitPopMin tracks else st.popMin
  popMax := if 1 < tracks.length then fitPopMax tracks else st.popMax
  profile := some (profileVec tracks)
  fitted := true

inductive RecErr where
  | valueError
  | runtimeError
deriving DecidableEq, Repr

/-- `Recommender.build_profile`: rejects an empty track list; the
TfidfVectorizer fit rejects an empty vocabulary (both `ValueError`);
otherwise stores the fitted state and the mean row. -/
noncomputable def buildProfile (st : RecState) (tracks : List Track) :
    Except RecErr (RecState × List ℝ) :=
  if tracks = [] then .error .valueError
  else if fitVocab tracks = [] then .error .valueError
  else .ok (fitState st tracks, profileVec tracks)

noncomputable def dotL : List ℝ → List ℝ → ℝ
  | a :: as, b :: bs => a * b + dotL as bs
  | _, _ => 0

/-- `cosine_similarity` of two rows (0 when either row is zero, as the
zero row stays zero under sklearn's normalisation). -/
noncomputable def cosSim (u v : List ℝ) : ℝ :=
  if sumsq u = 0 ∨ sumsq v = 0 then 0
  else dotL u v / (Real.sqrt (sumsq u) * Real.sqrt (sumsq v))

/-- Python's round-half-to-even on reals. -/
noncomputable def pyRoundInt (y : ℝ) : ℤ :=
  if y - ⌊y⌋ < 1/2 then ⌊y⌋
  else if 1/2 < y - ⌊y⌋ then ⌊y⌋ + 1
  else if Even ⌊y⌋ then ⌊y⌋ else ⌊y⌋ + 1

/-- `round(x, 4)`. -/
noncomputable def round4 (x : ℝ) : ℝ := (pyRoundInt (x * 10000) : ℝ) / 10000

/-- `zip(scores, candidates)` in candidate order. -/
noncomputable def scoredCandidates (st : RecState) (p : List ℝ) (cands : List Track) :
    List (ℝ × Track) :=
  cands.map fun c => (cosSim p (featVec st c), c)

/-- `sorted(zip(scores, candidates), key=lambda x: x[0], reverse=True)`. -/
noncomputable def rankedCandidates (st : RecState) (p : List ℝ) (cands : List Track) :
    List (ℝ × Track) :=
  stableSortDesc Prod.fst (scoredCandidates st p cands)

/-- Python list slicing `l[:n]`, including the negative-index case. -/
def pyTake {α : Type} (n : ℤ) (l : List α) : List α :=
  if 0 ≤ n then l.take n.toNat else l.take ((l.length : ℤ) + n).toNat

/-- `ranked[:top_n]` with each entry annotated with its rounded score. -/
noncomputable def rankList (st : RecState) (p : List ℝ) (cands : List Track) (n : ℤ) :
    List (Track × ℝ) :=
  (pyTake n (rankedCandidates st p cands)).map fun sc => (sc.2, round4 sc.1)

/-- `Recommender.rank_candidates`: a state fault before a profile exists,
an empty result for an empty candidate list, otherwise the ranked,
truncated, annotated list; the object state is never modified. -/
noncomputable def rankCandidates (st : RecState) (cands : List Track) (n : ℤ) :
    Except RecErr (RecState × List (Track × ℝ)) :=
  match st.profile, st.fitted with
  | some p, true =>
    if cands = [] then .ok (st, [])
    else .ok (st, rankList st p cands n)
  | _, _ => .error .runtimeError

/-! ### Concrete tracks used in witnesses and counterexamples -/

def trackWitnessA : Track := ⟨"a1", "Rolling", "u:a1", ["Adele"], none, some 60⟩

def trackWitnessB : Track := ⟨"b1", "Someone", "u:b1", ["Muse"], none, some 60⟩

def trackArtistHit : Track := ⟨"a2", "Hello", "u:a2", ["Adele"], none, some 50⟩

def trackTitleHit : Track := ⟨"b2", "adele hello", "u:b2", ["Bob"], none, some 50⟩

def trackNewJeans : Track := ⟨"t1", "Hurt", "u:t1", ["NewJeans"], none, some 80⟩

def trackMixA : Track := ⟨"m1", "Dreams", "u:m1", ["ArtistA"], none, some 10⟩

def trackMixB : Track := ⟨"m2", "Waves", "u:m2", ["ArtistB"], none, some 20⟩

def trackBts : Track := ⟨"s1", "Dynamite", "u:s1", ["bts"], none, none⟩

def trackNoArtists : Track := ⟨"n0", "Instrumental", "u:n0", [], none, none⟩

def trackCommaArtist : Track := ⟨"n1", "Untitled", "u:n1", [","], none, none⟩

def trackFitA : Track := ⟨"f1", "One", "u:f1", ["a"], some 100, some 50⟩

def trackFitB : Track := ⟨"f2", "Two", "u:f2", ["a"], some 200, some 100⟩

def trackFar : Track := ⟨"f3", "Three", "u:f3", ["zzz"], none, none⟩

/-- The recommender state after fitting on `[trackFitA, trackFitB]`. -/
noncomputable def stTwoFit : RecState :=
  ⟨[['a']], [2], 2, true, 100, 200, 50, 100, some [1, 1/2, 1/2], true⟩

/-! ## Theorems -/

/-! ### Real-vector support lemmas -/

theorem sumsq_nonneg (l : List ℝ) : 0 ≤ sumsq l := by
  induction l with
  | nil => simp [sumsq]
  | cons a as ih => simp only [sumsq]; nlinarith [sq_nonneg a]

theorem dotL_sq_le (u : List ℝ) : ∀ v, (dotL u v) ^ 2 ≤ sumsq u * sumsq v := by
  induction u with
  | nil =>
    intro v
    simp [dotL, sumsq]
  | cons a as ih =>
    intro v
    cases v with
    | nil =>
      simp [dotL, sumsq]
    | cons b bs =>
      have h := ih bs
      have hA := sumsq_nonneg as
      have hB := sumsq_nonneg bs
      have hx := Real.sq_sqrt hA
      have hy := Real.sq_sqrt hB
      have hxn := Real.sqrt_nonneg (sumsq as)
      have hyn := Real.sqrt_nonneg (sumsq bs)
      have hd2 : (dotL as bs) ^ 2 ≤ (Real.sqrt (sumsq as) * Real.sqrt (sumsq bs)) ^ 2 := by
        rw [mul_pow, hx, hy]
        exact h
      have hd := (abs_le_of_sq_le_sq' hd2 (mul_nonneg hxn hyn)).2
      have hdneg := (abs_le_of_sq_le_sq' hd2 (mul_nonneg hxn hyn)).1
      simp only [dotL, sumsq]
      rcases le_total 0 (a * b) with hab | hab
      · nlinarith [sq_nonneg (a * Real.sqrt (sumsq bs) - b * Real.sqrt (sumsq as)),
          mul_nonneg hab (sub_nonneg.mpr hd), hx, hy, h]
      · nlinarith [sq_nonneg (a * Real.sqrt (sumsq bs) + b * Real.sqrt (sumsq as)),
          mul_nonneg (neg_nonneg.mpr hab) (by linarith :
            (0:ℝ) ≤ Real.sqrt (sumsq as) * Real.sqrt (sumsq bs) + dotL as bs), hx, hy, h]

theorem dotL_self (l : List ℝ) : dotL l l = sumsq l := by
  induction l with
  | nil => simp [dotL, sumsq]
  | cons a as ih => simp [dotL, sumsq, ih]

theorem cosSim_bounds (u v : List ℝ) : -1 ≤ cosSim u v ∧ cosSim u v ≤ 1 := by
  unfold cosSim
  by_cases h0 : sumsq u = 0 ∨ sumsq v = 0
  · rw [if_pos h0]; norm_num
  · rw [if_neg h0]
    push_neg at h0
    have hA := sumsq_nonneg u
    have hB := sumsq_nonneg v
    have hX : 0 < Real.sqrt (sumsq u) := Real.sqrt_pos.mpr (lt_of_le_of_ne hA (Ne.symm h0.1))
    have hY : 0 < Real.sqrt (sumsq v) := Real.sqrt_pos.mpr (lt_of_le_of_ne hB (Ne.symm h0.2))
    have hXY : 0 < Real.sqrt (sumsq u) * Real.sqrt (sumsq v) := mul_pos hX hY
    have h2 : (dotL u v) ^ 2 ≤ (Real.sqrt (sumsq u) * Real.sqrt (sumsq v)) ^ 2 := by
      rw [mul_pow, Real.sq_sqrt hA, Real.sq_sqrt hB]
      exact dotL_sq_le u v
    obtain ⟨hneg, hpos⟩ := abs_le_of_sq_le_sq' h2 (le_of_lt hXY)
    constructor
    · rw [le_div_iff₀ hXY]; linarith
    · exact (div_le_one hXY).mpr hpos

theorem cosSim_self (v : List ℝ) (h : sumsq v ≠ 0) : cosSim v v = 1 := by
  unfold cosSim
  rw [if_neg (by tauto), dotL_self, Real.mul_self_sqrt (sumsq_nonneg v), div_self h]

theorem pyRoundInt_intCast (n : ℤ) : pyRoundInt (n : ℝ) = n := by
  unfold pyRoundInt
  rw [Int.floor_intCast, if_pos (by norm_num)]

theorem round4_one : round4 1 = 1 := by
  unfold round4
  rw [show (1:ℝ) * 10000 = ((10000:ℤ):ℝ) by norm_num, pyRoundInt_intCast]
  norm_num

theorem pyRoundInt_neg (y : ℝ) (h : y ≤ -1) : pyRoundInt y < 0 := by
  have hfl1 : ⌊y⌋ ≤ -1 := by
    have h2 := Int.floor_le_floor h
    rwa [show ⌊(-1:ℝ)⌋ = -1 by norm_num] at h2
  unfold pyRoundInt
  by_cases h1 : y - ⌊y⌋ < 1/2
  · rw [if_pos h1]; omega
  · rw [if_neg h1]
    push_neg at h1
    have hfl : (⌊y⌋ : ℝ) ≤ y := Int.floor_le y
    have h2 : ⌊y⌋ ≤ -2 := by
      have h3 : (⌊y⌋:ℝ) < ((-1 : ℤ) : ℝ) := by push_cast; linarith
      have h4 : ⌊y⌋ < -1 := by exact_mod_cast h3
      omega
    by_cases h5 : 1/2 < y - ⌊y⌋
    · rw [if_pos h5]; omega
    · rw [if_neg h5]
      by_cases h6 : Even ⌊y⌋
      · rw [if_pos h6]; omega
      · rw [if_neg h6]; omega

theorem round4_neg (x : ℝ) (h : x ≤ -(1/10000)) : round4 x < 0 := by
  unfold round4
  have h1 : x * 10000 ≤ -1 := by linarith
  have h2 := pyRoundInt_neg _ h1
  have h3 : ((pyRoundInt (x * 10000) : ℝ)) < 0 := by exact_mod_cast h2
  exact div_neg_of_neg_of_pos h3 (by norm_num)

theorem sumsq_map_div (l : List ℝ) (c : ℝ) :
    sumsq (l.map fun x => x / c) = sumsq l / (c * c) := by
  induction l with
  | nil => simp [sumsq]
  | cons a as ih => simp [sumsq, ih]; ring

theorem sumsq_l2normalize (l : List ℝ) (h : sumsq l ≠ 0) : sumsq (l2normalize l) = 1 := by
  unfold l2normalize
  rw [if_neg h, sumsq_map_div, Real.mul_self_sqrt (sumsq_nonneg l), div_self h]

theorem sumsq_append (a b : List ℝ) : sumsq (a ++ b) = sumsq a + sumsq b := by
  induction a with
  | nil => simp [sumsq]
  | cons x xs ih => simp [sumsq, ih]; ring

theorem sumsq_pos_of_mem {x : ℝ} {l : List ℝ} (hm : x ∈ l) (hx : x ≠ 0) : 0 < sumsq l := by
  induction l with
  | nil => simp at hm
  | cons a as ih =>
    rcases List.mem_cons.mp hm with rfl | hm2
    · have h1 := sumsq_nonneg as
      simp only [sumsq]
      nlinarith [mul_self_pos.mpr hx]
    · have h1 := ih hm2
      simp only [sumsq]
      nlinarith [sq_nonneg a]

/-! ### Claim C7: the recommender error contract -/

/-- C7 (amended).  `build_profile` raises `ValueError` exactly when the
track list is empty or yields an empty vocabulary (no artist tokens at
all — the original claim's "exactly when empty" fails on a non-empty
list of token-less tracks, see the counterexample); `rank_candidates`
raises `RuntimeError` exactly when no profile is stored (in particular on
a fresh recommender); after a successful `build_profile`, ranking an
empty candidate list returns an empty list without raising and with the
state unchanged. -/
theorem c7_error_contract (st : RecState) (tracks cands : List Track) (n : ℤ) :
    (buildProfile st tracks = .error .valueError ↔ tracks = [] ∨ fitVocab tracks = [])
    ∧ (st.fitted = false ∨ st.profile = none →
        rankCandidates st cands n = .error .runtimeError)
    ∧ rankCandidates initRecState cands n = .error .runtimeError
    ∧ (∀ st2 p, buildProfile st tracks = .ok (st2, p) →
        st2.fitted = true ∧ st2.profile = some (profileVec tracks)
        ∧ rankCandidates st2 [] n = .ok (st2, []))
    ∧ (∀ q, st.profile = some q → st.fitted = true →
        rankCandidates st [] n = .ok (st, [])) := by
  refine ⟨?_, ?_, ?_, ?_, ?_⟩
  · by_cases h1 : tracks = [] <;> by_cases h2 : fitVocab tracks = [] <;>
      simp [buildProfile, h1, h2]
  · intro h
    rcases hp : st.profile with _ | q
    · simp [rankCandidates, hp]
    · cases hf : st.fitted
      · simp [rankCandidates, hp, hf]
      · exfalso
        rcases h with h | h
        · rw [hf] at h; simp at h
        · rw [hp] at h; simp at h
  · simp [rankCandidates, initRecState]
  · intro st2 p hb
    by_cases h1 : tracks = []
    · simp [buildProfile, h1] at hb
    · by_cases h2 : fitVocab tracks = []
      · simp [buildProfile, h1, h2] at hb
      · simp [buildProfile, h1, h2] at hb
        rcases hb with ⟨rfl, rfl⟩
        exact ⟨rfl, rfl, by simp [rankCandidates, fitState]⟩
  · intro q hq hf
    simp [rankCandidates, hq, hf]

/-- Witness for C7: a fresh recommender raises the state fault; after a
one-track profile build, ranking an empty list returns empty with the
state unchanged. -/
theorem c7_error_contract_witness :
    rankCandidates initRecState [] 10 = .error .runtimeError
    ∧ rankCandidates (fitState initRecState [trackBts]) [] 10 =
        .ok (fitState initRecState [trackBts], []) :=
  ⟨(c7_error_contract initRecState [] [] 10).2.2.1,
   (c7_error_contract (fitState initRecState [trackBts]) [] [] 10).2.2.2.2
     (profileVec [trackBts]) rfl rfl⟩

/-- C7 counterexample: a non-empty track list whose single track has no
artists still raises `ValueError` (empty fitted vocabulary), so
"raises exactly when given an empty sequence" is false. -/
theorem c7_counterexample :
    ([trackNoArtists] : List Track) ≠ []
    ∧ buildProfile initRecState [trackNoArtists] = .error .valueError := by
  have h : fitVocab [trackNoArtists] = [] := by decide
  exact ⟨by decide, by simp [buildProfile, h]⟩


theorem keyDescRel_total {α β : Type} (key : α → β) [LinearOrder β] :
    ∀ a b, keyDescRel key a b ∨ keyDescRel key b a := by
  intro a b
  rcases lt_trichotomy (key a.2) (key b.2) with h | h | h
  · exact Or.inr (Or.inl h)
  · rcases le_total a.1 b.1 with h2 | h2
    · exact Or.inl (Or.inr ⟨h, h2⟩)
    · exact Or.inr (Or.inr ⟨h.symm, h2⟩)
  · exact Or.inl (Or.inl h)

theorem keyDescRel_trans {α β : Type} (key : α → β) [LinearOrder β] :
    ∀ a b c, keyDescRel key a b → keyDescRel key b c → keyDescRel key a c := by
  rintro a b c (hab | ⟨hab, hab2⟩) (hbc | ⟨hbc, hbc2⟩)
  · exact Or.inl (hbc.trans hab)
  · exact Or.inl (hbc ▸ hab)
  · exact Or.inl (lt_of_lt_of_le hbc (le_of_eq hab.symm))
  · exact Or.inr ⟨hab.trans hbc, hab2.trans hbc2⟩

theorem stableSortDesc_perm {α β : Type} (key : α → β) [LinearOrder β] (l : List α) :
    List.Perm (stableSortDesc key l) l := by
  have h := (List.perm_insertionSort (keyDescRel key) l.enum).map Prod.snd
  simpa [stableSortDesc, stableSortEnum, List.enum_map_snd] using h

theorem stableSortEnum_sorted {α β : Type} (key : α → β) [LinearOrder β] (l : List α) :
    List.Sorted (keyDescRel key) (stableSortEnum key l) := by
  haveI : IsTotal (ℕ × α) (keyDescRel key) := ⟨keyDescRel_total key⟩
  haveI : IsTrans (ℕ × α) (keyDescRel key) := ⟨keyDescRel_trans key⟩
  exact List.sorted_insertionSort _ _

theorem stableSortDesc_sorted {α β : Type} (key : α → β) [LinearOrder β] (l : List α) :
    List.Sorted (fun x y => key y ≤ key x) (stableSortDesc key l) := by
  have h := stableSortEnum_sorted key l
  exact List.Pairwise.map Prod.snd
    (fun a b hab => by
      rcases hab with h1 | ⟨h1, _⟩
      · exact le_of_lt h1
      · exact le_of_eq h1.symm) h

theorem stableSortEnum_stable {α β : Type} (key : α → β) [LinearOrder β] (l : List α) :
    List.Pairwise (fun a b => key a.2 = key b.2 → a.1 ≤ b.1) (stableSortEnum key l) := by
  refine (stableSortEnum_sorted key l).imp ?_
  intro a b hab heq
  rcases hab with h1 | ⟨_, h2⟩
  · rw [heq] at h1
    exact absurd h1 (lt_irrefl _)
  · exact h2

/-! ### Claim C9: single-track round trip -/

theorem mem_insLex {a x : List Char} {l : List (List Char)} :
    a ∈ insLex x l ↔ a = x ∨ a ∈ l := by
  induction l with
  | nil => simp [insLex]
  | cons y ys ih =>
    simp only [insLex]
    split
    · simp [List.mem_cons]
    · simp only [List.mem_cons, ih]
      tauto

theorem mem_sortLex {a : List Char} {l : List (List Char)} :
    a ∈ sortLex l ↔ a ∈ l := by
  induction l with
  | nil => simp [sortLex]
  | cons x xs ih =>
    show a ∈ insLex x (sortLex xs) ↔ _
    rw [mem_insLex, ih, List.mem_cons]

theorem mem_fitVocab_single {v : List Char} {t : Track} (hv : v ∈ fitVocab [t]) :
    v ∈ docTokens (artistDoc t) := by
  unfold fitVocab at hv
  have h1 := mem_sortLex.mp hv
  rw [List.mem_dedup] at h1
  simpa using h1

theorem fitVocab_single_ne_nil {t : Track} (htok : docTokens (artistDoc t) ≠ []) :
    fitVocab [t] ≠ [] := by
  obtain ⟨x, hx⟩ := List.exists_mem_of_ne_nil _ htok
  have h2 : x ∈ fitVocab [t] := by
    unfold fitVocab
    rw [mem_sortLex, List.mem_dedup]
    simpa using hx
  exact List.ne_nil_of_mem h2

theorem fitDf_single (t : Track) :
    fitDf [t] = (fitVocab [t]).map fun _ => 1 := by
  unfold fitDf
  apply List.map_congr_left
  intro v hv
  have hvt := mem_fitVocab_single hv
  simp [List.countP_cons, hvt]

theorem zip_self_map {α β : Type} (l : List α) (g : α → β) :
    l.zip (l.map g) = l.map fun a => (a, g a) := by
  induction l with
  | nil => rfl
  | cons x xs ih => simp [ih]

theorem idfVal_self (n : ℕ) : idfVal n n = 1 := by
  unfold idfVal
  rw [div_self (by positivity), Real.log_one]
  ring

theorem tfidfVec_single (t : Track) :
    tfidfVec (fitVocab [t]) (fitDf [t]) 1 (docTokens (artistDoc t)) =
      l2normalize ((fitVocab [t]).map fun v => ((docTokens (artistDoc t)).count v : ℝ)) := by
  unfold tfidfVec
  congr 1
  rw [fitDf_single, zip_self_map, List.map_map]
  apply List.map_congr_left
  intro v hv
  simp [idfVal_self, Function.comp]

theorem sumsq_tfidfVec_single (t : Track) (htok : docTokens (artistDoc t) ≠ []) :
    sumsq (tfidfVec (fitVocab [t]) (fitDf [t]) 1 (docTokens (artistDoc t))) = 1 := by
  rw [tfidfVec_single]
  apply sumsq_l2normalize
  have hne := fitVocab_single_ne_nil htok
  obtain ⟨v, hv⟩ := List.exists_mem_of_ne_nil _ hne
  have hvt := mem_fitVocab_single hv
  have hcount : (docTokens (artistDoc t)).count v ≠ 0 := by
    have h1 := List.count_pos_iff.mpr hvt
    omega
  have hmem : ((docTokens (artistDoc t)).count v : ℝ) ∈
      (fitVocab [t]).map fun v => ((docTokens (artistDoc t)).count v : ℝ) :=
    List.mem_map_of_mem _ hv
  have h2 := sumsq_pos_of_mem hmem (by exact_mod_cast hcount)
  exact ne_of_gt h2

theorem featVec_fitState_single (t : Track) :
    featVec (fitState initRecState [t]) t = fitRow [t] t := by
  unfold featVec fitState fitRow initRecState
  simp

theorem profileVec_single (t : Track) : profileVec [t] = fitRow [t] t := by
  unfold profileVec vecSum
  simp [div_one]

theorem sumsq_profileVec_single (t : Track) (htok : docTokens (artistDoc t) ≠ []) :
    sumsq (profileVec [t]) = 1 := by
  rw [profileVec_single]
  unfold fitRow
  rw [sumsq_append]
  simp only [List.length_singleton]
  rw [if_neg (by omega), sumsq_tfidfVec_single t htok]
  simp [sumsq]

theorem stableSortDesc_singleton {α β : Type} (key : α → β) [LinearOrder β] (x : α) :
    stableSortDesc key [x] = [x] := by
  simp [stableSortDesc, stableSortEnum, List.insertionSort, List.orderedInsert,
    List.enum, List.enumFrom]

theorem pyTake_one_le {α : Type} (n : ℤ) (h : 1 ≤ n) (x : α) : pyTake n [x] = [x] := by
  unfold pyTake
  rw [if_pos (by omega)]
  have h1 : 1 ≤ n.toNat := by omega
  cases hk : n.toNat with
  | zero => omega
  | succ m => simp

theorem rankCandidates_of_profile (st : RecState) (p : List ℝ) (cands : List Track)
    (n : ℤ) (hp : st.profile = some p) (hf : st.fitted = true) (hc : cands ≠ []) :
    rankCandidates st cands n = .ok (st, rankList st p cands n) := by
  unfold rankCandidates
  rw [hp, hf]
  simp [hc]

/-- C9 (amended).  For a single-track list whose track contributes at
least one artist token, the round trip behaves as claimed: building the
profile succeeds, the single-row profile zeroes the numeric features (the
scaler is not fitted on one row), the candidate's numeric transform on
the never-fitted scaler is caught and zeroed, the candidate's feature
vector equals the profile vector, and ranking the same track against the
profile returns it with similarity exactly 1 (which `round(., 4)` keeps
at 1).  (The original claim, for *every* single-element list, fails when
the track has no artist tokens: the fit raises, see the
counterexample.) -/
theorem c9_single_track_round_trip (t : Track) (n : ℤ)
    (htok : docTokens (artistDoc t) ≠ []) (hn : 1 ≤ n) :
    buildProfile initRecState [t] = .ok (fitState initRecState [t], profileVec [t])
    ∧ featVec (fitState initRecState [t]) t = profileVec [t]
    ∧ rankCandidates (fitState initRecState [t]) [t] n =
        .ok (fitState initRecState [t], [(t, 1)]) := by
  have hvocab := fitVocab_single_ne_nil htok
  have hfeat : featVec (fitState initRecState [t]) t = profileVec [t] := by
    rw [featVec_fitState_single, profileVec_single]
  have hsum := sumsq_profileVec_single t htok
  have hcos : cosSim (profileVec [t]) (profileVec [t]) = 1 :=
    cosSim_self _ (by rw [hsum]; norm_num)
  refine ⟨by simp [buildProfile, hvocab], hfeat, ?_⟩
  have hrank : rankList (fitState initRecState [t]) (profileVec [t]) [t] n = [(t, 1)] := by
    unfold rankList rankedCandidates scoredCandidates
    simp only [List.map_cons, List.map_nil, hfeat, hcos]
    rw [stableSortDesc_singleton, pyTake_one_le n hn]
    simp [round4_one]
  rw [rankCandidates_of_profile _ (profileVec [t]) _ _ rfl rfl (by simp), hrank]

/-- Witness for C9 at a concrete one-artist track. -/
theorem c9_single_track_round_trip_witness :
    rankCandidates (fitState initRecState [trackBts]) [trackBts] 10 =
      .ok (fitState initRecState [trackBts], [(trackBts, 1)]) :=
  (c9_single_track_round_trip trackBts 10 (by decide) (by decide)).2.2

/-- C9 counterexample: the single-element list whose track's artist list
is `[","]` yields no tokens, so `build_profile` raises instead of the
round trip returning the track with similarity 1. -/
theorem c9_counterexample :
    ([trackCommaArtist] : List Track) ≠ []
    ∧ buildProfile initRecState [trackCommaArtist] = .error .valueError := by
  have h : fitVocab [trackCommaArtist] = [] := by decide
  exact ⟨by decide, by simp [buildProfile, h]⟩


/-! ### Claim C8: the ranking contract -/

/-- C8 (amended).  For a fitted state and non-empty candidates with a
*non-negative* `top_n`: ranking succeeds, returns at most `top_n`
entries, the ranked pair list is sorted by non-increasing similarity with
ties preserving candidate order (stable), every score is the cosine
similarity of the profile with the candidate's feature vector and lies in
[-1, 1] (not [0, 1]: out-of-range numeric features make negative scores
possible, and a negative `top_n` slices from the end — see the
counterexample), and the returned entries are the truncated ranked pairs
annotated with the 4-decimal rounding of their scores. -/
theorem c8_rank_contract (st : RecState) (p : List ℝ) (cands : List Track) (n : ℤ)
    (hp : st.profile = some p) (hf : st.fitted = true) (hc : cands ≠ []) (hn : 0 ≤ n) :
    rankCandidates st cands n = .ok (st, rankList st p cands n)
    ∧ ((rankList st p cands n).length : ℤ) ≤ n
    ∧ List.Sorted (fun x y => y.1 ≤ x.1) (rankedCandidates st p cands)
    ∧ List.Pairwise (fun x y => x.2.1 = y.2.1 → x.1 ≤ y.1)
        (stableSortEnum Prod.fst (scoredCandidates st p cands))
    ∧ List.Perm (rankedCandidates st p cands) (scoredCandidates st p cands)
    ∧ (∀ sc ∈ scoredCandidates st p cands,
        sc.1 = cosSim p (featVec st sc.2) ∧ -1 ≤ sc.1 ∧ sc.1 ≤ 1)
    ∧ rankList st p cands n =
        (pyTake n (rankedCandidates st p cands)).map fun sc => (sc.2, round4 sc.1) := by
  refine ⟨rankCandidates_of_profile st p cands n hp hf hc, ?_,
    stableSortDesc_sorted _ _, stableSortEnum_stable _ _, stableSortDesc_perm _ _,
    ?_, rfl⟩
  · have h1 : (rankList st p cands n).length = (pyTake n (rankedCandidates st p cands)).length :=
      List.length_map _ _
    have h2 : (pyTake n (rankedCandidates st p cands)).length ≤ n.toNat := by
      unfold pyTake
      rw [if_pos hn]
      exact (List.length_take _ _).trans_le (min_le_left _ _)
    have h3 : ((n.toNat : ℤ)) = n := Int.toNat_of_nonneg hn
    omega
  · intro sc hsc
    unfold scoredCandidates at hsc
    obtain ⟨c, hc2, rfl⟩ := List.mem_map.mp hsc
    exact ⟨rfl, (cosSim_bounds p (featVec st c)).1, (cosSim_bounds p (featVec st c)).2⟩

/-- Witness for C8: the fitted two-track state ranking one candidate. -/
theorem c8_rank_contract_witness :
    rankCandidates stTwoFit [trackFar] 10 =
      .ok (stTwoFit, rankList stTwoFit [1, 1/2, 1/2] [trackFar] 10) :=
  (c8_rank_contract stTwoFit [1, 1/2, 1/2] [trackFar] 10 rfl rfl
    (by simp) (by norm_num)).1

theorem l2normalize_one : l2normalize [(1:ℝ)] = [1] := by
  unfold l2normalize
  rw [if_neg (by norm_num [sumsq])]
  norm_num [sumsq, Real.sqrt_one]

theorem l2normalize_zero : l2normalize [(0:ℝ)] = [0] := by
  unfold l2normalize
  rw [if_pos (by norm_num [sumsq])]

theorem tfidfVec_pair_hit : tfidfVec [['a']] [2] 2 [['a']] = [1] := by
  have hcount : (([['a']] : List (List Char)).count (['a'] : List Char)) = 1 := by decide
  unfold tfidfVec
  rw [show ([(['a'] : List Char)].zip ([2] : List ℕ)) = [((['a'] : List Char), (2:ℕ))] from rfl]
  simp only [List.map_cons, List.map_nil, hcount, idfVal_self]
  norm_num [l2normalize_one]

theorem tfidfVec_pair_miss (toks : List (List Char)) (h : toks.count (['a'] : List Char) = 0) :
    tfidfVec [['a']] [2] 2 toks = [0] := by
  unfold tfidfVec
  rw [show ([(['a'] : List Char)].zip ([2] : List ℕ)) = [((['a'] : List Char), (2:ℕ))] from rfl]
  simp only [List.map_cons, List.map_nil, h]
  norm_num [l2normalize_zero]

theorem profileVec_pair : profileVec [trackFitA, trackFitB] = [1, 1/2, 1/2] := by
  have hv : fitVocab [trackFitA, trackFitB] = [['a']] := by decide
  have hdf : fitDf [trackFitA, trackFitB] = [2] := by decide
  have hdmin : fitDurMin [trackFitA, trackFitB] = 100 := by decide
  have hdmax : fitDurMax [trackFitA, trackFitB] = 200 := by decide
  have hpmin : fitPopMin [trackFitA, trackFitB] = 50 := by decide
  have hpmax : fitPopMax [trackFitA, trackFitB] = 100 := by decide
  have hA : docTokens (artistDoc trackFitA) = [['a']] := by decide
  have hB : docTokens (artistDoc trackFitB) = [['a']] := by decide
  have hrowA : fitRow [trackFitA, trackFitB] trackFitA = [1, 0, 0] := by
    unfold fitRow
    rw [hv, hdf, hA, hdmin, hdmax, hpmin, hpmax]
    simp only [List.length_cons, List.length_nil]
    rw [if_pos (by omega), tfidfVec_pair_hit]
    unfold scaleVal durVal popVal trackFitA
    norm_num
  have hrowB : fitRow [trackFitA, trackFitB] trackFitB = [1, 1, 1] := by
    unfold fitRow
    rw [hv, hdf, hB, hdmin, hdmax, hpmin, hpmax]
    simp only [List.length_cons, List.length_nil]
    rw [if_pos (by omega), tfidfVec_pair_hit]
    unfold scaleVal durVal popVal trackFitB
    norm_num
  unfold profileVec
  simp only [List.map_cons, List.map_nil, hrowA, hrowB, List.length_cons, List.length_nil]
  unfold vecSum
  simp only [List.foldl_cons, List.foldl_nil, List.zipWith_cons_cons, List.zipWith_nil_right]
  norm_num

theorem fitState_pair : fitState initRecState [trackFitA, trackFitB] = stTwoFit := by
  have hv : fitVocab [trackFitA, trackFitB] = [['a']] := by decide
  have hdf : fitDf [trackFitA, trackFitB] = [2] := by decide
  have hdmin : fitDurMin [trackFitA, trackFitB] = 100 := by decide
  have hdmax : fitDurMax [trackFitA, trackFitB] = 200 := by decide
  have hpmin : fitPopMin [trackFitA, trackFitB] = 50 := by decide
  have hpmax : fitPopMax [trackFitA, trackFitB] = 100 := by decide
  unfold fitState stTwoFit initRecState
  simp [hv, hdf, hdmin, hdmax, hpmin, hpmax, profileVec_pair]

theorem buildProfile_pair :
    buildProfile initRecState [trackFitA, trackFitB] = .ok (stTwoFit, [1, 1/2, 1/2]) := by
  have hv : fitVocab [trackFitA, trackFitB] = [['a']] := by decide
  unfold buildProfile
  rw [if_neg (by simp), if_neg (by rw [hv]; simp), fitState_pair, profileVec_pair]

theorem featVec_far : featVec stTwoFit trackFar = [0, -1, -1] := by
  have hcount : (docTokens (artistDoc trackFar)).count (['a'] : List Char) = 0 := by decide
  unfold featVec
  rw [show stTwoFit.vocab = [['a']] from rfl, show stTwoFit.df = [2] from rfl,
    show stTwoFit.nDocs = 2 from rfl, tfidfVec_pair_miss _ hcount,
    show stTwoFit.scalerFitted = true from rfl]
  rw [if_pos rfl]
  rw [show stTwoFit.durMin = 100 from rfl, show stTwoFit.durMax = 200 from rfl,
    show stTwoFit.popMin = 50 from rfl, show stTwoFit.popMax = 100 from rfl]
  unfold scaleVal durVal popVal trackFar
  norm_num

theorem cosSim_far : cosSim [1, 1/2, 1/2] [0, -1, -1] = -(1 / Real.sqrt 3) := by
  have hu : sumsq [(1:ℝ), 1/2, 1/2] = 3/2 := by norm_num [sumsq]
  have hv : sumsq [(0:ℝ), -1, -1] = 2 := by norm_num [sumsq]
  unfold cosSim
  rw [if_neg (by rw [hu, hv]; norm_num), hu, hv]
  rw [show dotL [(1:ℝ), 1/2, 1/2] [0, -1, -1] = -1 by norm_num [dotL]]
  rw [← Real.sqrt_mul (by norm_num : (0:ℝ) ≤ 3/2)]
  norm_num [neg_div]

theorem round4_far_neg : round4 (-(1 / Real.sqrt 3)) < 0 := by
  have hpos : 0 < Real.sqrt 3 := Real.sqrt_pos.mpr (by norm_num)
  have h3 : Real.sqrt 3 ≤ 2 := by
    rw [show (2:ℝ) = Real.sqrt 4 by
      rw [show (4:ℝ) = 2 ^ 2 by norm_num, Real.sqrt_sq (by norm_num : (0:ℝ) ≤ 2)]]
    exact Real.sqrt_le_sqrt (by norm_num)
  have hle : 1/10000 ≤ 1 / Real.sqrt 3 := one_div_le_one_div_of_le hpos (by linarith)
  exact round4_neg _ (by linarith)

theorem stableSortDesc_pair_eq {α β : Type} (key : α → β) [LinearOrder β] (x : α) :
    stableSortDesc key [x, x] = [x, x] := by
  unfold stableSortDesc stableSortEnum
  have hrel : keyDescRel key (0, x) (1, x) := Or.inr ⟨rfl, by omega⟩
  simp [List.insertionSort, List.orderedInsert, List.enum, List.enumFrom, hrel]

/-- C8 counterexample: after fitting on two tracks with durations
100/200 and popularities 50/100, an unknown-artist candidate with
duration and popularity 0 scales to negative numeric features, its
cosine similarity to the profile is -1/√3, and the returned
similarity_score is negative — outside [0, 1].  Moreover `top_n = -1`
slices from the end: two candidates yield one returned entry, and
1 ≤ -1 is false, refuting "at most top_n" for arbitrary `top_n`. -/
theorem c8_counterexample :
    buildProfile initRecState [trackFitA, trackFitB] = .ok (stTwoFit, [1, 1/2, 1/2])
    ∧ rankCandidates stTwoFit [trackFar] 10 =
        .ok (stTwoFit, [(trackFar, round4 (-(1 / Real.sqrt 3)))])
    ∧ round4 (-(1 / Real.sqrt 3)) < 0
    ∧ rankCandidates stTwoFit [trackFar, trackFar] (-1) =
        .ok (stTwoFit, [(trackFar, round4 (-(1 / Real.sqrt 3)))])
    ∧ ¬ ((1:ℤ) ≤ -1) := by
  have hfeat := featVec_far
  have hcos : cosSim [(1:ℝ), 1/2, 1/2] (featVec stTwoFit trackFar) = -(1 / Real.sqrt 3) := by
    rw [hfeat, cosSim_far]
  refine ⟨buildProfile_pair, ?_, round4_far_neg, ?_, by decide⟩
  · rw [rankCandidates_of_profile stTwoFit [1, 1/2, 1/2] [trackFar] 10 rfl rfl (by simp)]
    unfold rankList rankedCandidates scoredCandidates
    simp only [List.map_cons, List.map_nil, hcos]
    rw [stableSortDesc_singleton, pyTake_one_le 10 (by norm_num)]
    simp
  · rw [rankCandidates_of_profile stTwoFit [1, 1/2, 1/2] [trackFar, trackFar] (-1)
      rfl rfl (by simp)]
    unfold rankList rankedCandidates scoredCandidates
    simp only [List.map_cons, List.map_nil, hcos]
    rw [stableSortDesc_pair_eq]
    rw [show pyTake (-1) [((-(1 / Real.sqrt 3)), trackFar), ((-(1 / Real.sqrt 3)), trackFar)] =
      [((-(1 / Real.sqrt 3)), trackFar)] by unfold pyTake; norm_num]
    simp


/-! ### Claims C2 and C3: the fallback classifier -/

/-- C2 (amended).  The fallback classifies in the fixed precedence order
identity → device → recommendation → search → play → default; the
returned action is always one of the six enumerated actions; for the
recommendation/search/play classifications the query is the trimmed
remainder after stripping a leading action-verb phrase, and for the
default classification it is the full trimmed utterance; "who am I"
yields `get_current_user` with empty query.  (The original claim that the
query is never the literal leading action-verb phrase fails, see the
counterexample "play play".) -/
theorem c2_fallback_classification (input : String) :
    (parseWithKeywords input).action ∈ enumeratedActions
    ∧ (hasTrig userTriggerPhrases input = true →
        parseWithKeywords input = ⟨"get_current_user", "", none⟩)
    ∧ (hasTrig userTriggerPhrases input = false →
       hasTrig deviceTriggerPhrases input = true →
        parseWithKeywords input = ⟨"list_devices", "", none⟩)
    ∧ (hasTrig userTriggerPhrases input = false →
       hasTrig deviceTriggerPhrases input = false →
       hasTrig recommendTriggerPhrases input = true →
        parseWithKeywords input =
          ⟨"get_recommendations", String.mk (stripActionQuery (fbText input)), fbExtras input⟩)
    ∧ (hasTrig userTriggerPhrases input = false →
       hasTrig deviceTriggerPhrases input = false →
       hasTrig recommendTriggerPhrases input = false →
       hasTrig searchTriggerPhrases input = true →
        parseWithKeywords input =
          ⟨"search_music", String.mk (stripActionQuery (fbText input)), fbExtras input⟩)
    ∧ (hasTrig userTriggerPhrases input = false →
       hasTrig deviceTriggerPhrases input = false →
       hasTrig recommendTriggerPhrases input = false →
       hasTrig searchTriggerPhrases input = false →
       hasTrig playTriggerPhrases input = true →
        parseWithKeywords input =
          ⟨"play_music", String.mk (stripActionQuery (fbText input)), fbExtras input⟩)
    ∧ (hasTrig userTriggerPhrases input = false →
       hasTrig deviceTriggerPhrases input = false →
       hasTrig recommendTriggerPhrases input = false →
       hasTrig searchTriggerPhrases input = false →
       hasTrig playTriggerPhrases input = false →
        parseWithKeywords input =
          ⟨"play_music", String.mk (fbText input), fbExtras input⟩)
    ∧ parseWithKeywords "who am I" = ⟨"get_current_user", "", none⟩ := by
  refine ⟨?_, ?_, ?_, ?_, ?_, ?_, ?_, by decide⟩
  · cases hu : hasTrig userTriggerPhrases input <;>
      cases hd : hasTrig deviceTriggerPhrases input <;>
      cases hr : hasTrig recommendTriggerPhrases input <;>
      cases hs : hasTrig searchTriggerPhrases input <;>
      cases hp : hasTrig playTriggerPhrases input <;>
      simp [parseWithKeywords, hu, hd, hr, hs, hp, enumeratedActions]
  · intro hu; simp [parseWithKeywords, hu]
  · intro hu hd; simp [parseWithKeywords, hu, hd]
  · intro hu hd hr; simp [parseWithKeywords, hu, hd, hr]
  · intro hu hd hr hs; simp [parseWithKeywords, hu, hd, hr, hs]
  · intro hu hd hr hs hp; simp [parseWithKeywords, hu, hd, hr, hs, hp]
  · intro hu hd hr hs hp; simp [parseWithKeywords, hu, hd, hr, hs, hp]

/-- Witness for C2 at the concrete utterance "play Drake". -/
theorem c2_fallback_classification_witness :
    parseWithKeywords "play Drake" =
      ⟨"play_music", String.mk (stripActionQuery (fbText "play Drake")),
        fbExtras "play Drake"⟩ :=
  (c2_fallback_classification "play Drake").2.2.2.2.2.1
    (by decide) (by decide) (by decide) (by decide) (by decide)

/-- C2 counterexample: on the utterance "play play" the leading
action-verb phrase is "play" (it is indeed stripped, leaving the
remainder " play"), yet the returned query is the string "play" — the
literal leading action-verb phrase.  So the query *can* equal a leading
action-verb phrase. -/
theorem c2_counterexample :
    "play" ∈ stripPhrases
    ∧ stripFound (fbText "play play") = some (' ' :: "play".toList)
    ∧ (parseWithKeywords "play play").action = "play_music"
    ∧ (parseWithKeywords "play play").query = "play" := by decide

/-- C3 (amended).  For utterances that are not classified as identity or
device questions, the fallback sets `extras.is_mood_or_genre = true` iff
the utterance contains a mood token (lofi, lo-fi, chill, vibe, vibes,
study, focus, ambient, background), and leaves the key unset otherwise;
utterances classified as identity or device questions always get empty
extras.  "play lofi study beats" yields `play_music` with
`is_mood_or_genre = true`.  (The original claim that the flag tracks mood
tokens for *every* utterance fails on identity/device utterances, see the
counterexample.) -/
theorem c3_mood_flag (input : String) :
    ((hasTrig userTriggerPhrases input = false ∧ hasTrig deviceTriggerPhrases input = false) →
      (((parseWithKeywords input).isMoodOrGenre = some true ↔
          hasTrig moodTokenPhrases input = true)
       ∧ ((parseWithKeywords input).isMoodOrGenre = none ↔
          hasTrig moodTokenPhrases input = false)))
    ∧ ((hasTrig userTriggerPhrases input = true ∨ hasTrig deviceTriggerPhrases input = true) →
        (parseWithKeywords input).isMoodOrGenre = none)
    ∧ parseWithKeywords "play lofi study beats" =
        ⟨"play_music", "lofi study beats", some true⟩ := by
  refine ⟨?_, ?_, by decide⟩
  · rintro ⟨hu, hd⟩
    cases hm : hasTrig moodTokenPhrases input <;>
      cases hr : hasTrig recommendTriggerPhrases input <;>
      cases hs : hasTrig searchTriggerPhrases input <;>
      cases hp : hasTrig playTriggerPhrases input <;>
      simp [parseWithKeywords, fbExtras, hu, hd, hm, hr, hs, hp]
  · rintro (hu | hd)
    · simp [parseWithKeywords, hu]
    · cases hu : hasTrig userTriggerPhrases input <;>
        simp [parseWithKeywords, hu, hd]

/-- Witness for C3 at the concrete utterance "find chill songs". -/
theorem c3_mood_flag_witness :
    (parseWithKeywords "find chill songs").isMoodOrGenre = some true :=
  (((c3_mood_flag "find chill songs").1 ⟨by decide, by decide⟩).1).mpr (by decide)

/-- C3 counterexample: "who am i chill" contains the mood token "chill",
but the identity classification returns empty extras, so
`is_mood_or_genre` is not set — the flag is *not* independent of which
action triggered. -/
theorem c3_counterexample :
    hasTrig moodTokenPhrases "who am i chill" = true
    ∧ (parseWithKeywords "who am i chill").action = "get_current_user"
    ∧ (parseWithKeywords "who am i chill").isMoodOrGenre = none := by decide

/-! ### Claim C10: query normalisation -/

theorem stringMk_eq_empty (l : List Char) : String.mk l = "" ↔ l = [] := by
  constructor
  · intro h
    simpa using congrArg String.data h
  · rintro rfl
    rfl

/-- C10 (amended).  The resolved search query is the trimmed raw
utterance when the intent's query is empty after stripping or the action
is "unknown", and the *trimmed* intent query otherwise (the code strips
the intent query before using it, it does not pass it on as-is);
consequently the query reaching the catalog is non-empty whenever the raw
utterance is not pure whitespace. -/
theorem c10_resolved_query (intent : Intent) (message : String) :
    (trimL intent.query.toList = [] ∨ intent.action = "unknown" →
      resolvePlayQuery intent message = String.mk (trimL message.toList))
    ∧ (trimL intent.query.toList ≠ [] → intent.action ≠ "unknown" →
      resolvePlayQuery intent message = String.mk (trimL intent.query.toList))
    ∧ (trimL message.toList ≠ [] → resolvePlayQuery intent message ≠ "") := by
  refine ⟨?_, ?_, ?_⟩
  · intro h
    have hcond : String.mk (trimL intent.query.toList) = "" ∨ intent.action = "unknown" := by
      rcases h with h | h
      · exact Or.inl ((stringMk_eq_empty _).mpr h)
      · exact Or.inr h
    simp only [resolvePlayQuery]
    rw [if_pos hcond]
  · intro h1 h2
    have hcond : ¬(String.mk (trimL intent.query.toList) = "" ∨ intent.action = "unknown") := by
      rintro (h | h)
      · exact h1 ((stringMk_eq_empty _).mp h)
      · exact h2 h
    simp only [resolvePlayQuery]
    rw [if_neg hcond]
  · intro hmsg
    by_cases hcond : String.mk (trimL intent.query.toList) = "" ∨ intent.action = "unknown"
    · simp only [resolvePlayQuery]
      rw [if_pos hcond]
      exact fun h => hmsg ((stringMk_eq_empty _).mp h)
    · simp only [resolvePlayQuery]
      rw [if_neg hcond]
      push_neg at hcond
      exact hcond.1

/-- Witness for C10: an intent with a usable query. -/
theorem c10_resolved_query_witness :
    resolvePlayQuery ⟨"play_music", "Drake", none⟩ "hello there" =
      String.mk (trimL ("Drake" : String).toList) :=
  (c10_resolved_query ⟨"play_music", "Drake", none⟩ "hello there").2.1
    (by decide) (by decide)

/-- C10 counterexample: for a whitespace-padded intent query the resolved
query is the stripped string "Drake", not the intent's query
"  Drake  " as-is — the claim's "equals the intent's query otherwise"
fails. -/
theorem c10_counterexample :
    (Intent.mk "play_music" "  Drake  " none).query = "  Drake  "
    ∧ trimL ("  Drake  " : String).toList ≠ []
    ∧ ("play_music" : String) ≠ "unknown"
    ∧ resolvePlayQuery ⟨"play_music", "  Drake  ", none⟩ "hello there" = "Drake"
    ∧ ("Drake" : String) ≠ "  Drake  " := by decide

/-! ### Claim C4: candidate scoring and ranking -/

/-- C4 (amended).  The score of a track is its popularity (0 when
absent), plus 50 if some artist name (normalised) is a substring of the
normalised query, plus 50 if the normalised track name equals the
normalised query; the pool is sorted descending by score, stably (ties
keep the original index order); and for two tracks with equal popularity,
the one whose artist name is a substring of the query outranks the other
*provided* the other track has neither an artist-substring match nor an
exact title match (without that proviso the claim fails, see the
counterexample). -/
theorem c4_scoring (query : String) (pool : List Track) (a b : Track)
    (hpop : a.popularity.getD 0 = b.popularity.getD 0)
    (ha : artistSubstring query a = true)
    (hb : artistSubstring query b = false)
    (hbn : pyNormalize b.name ≠ pyNormalize query) :
    (∀ t : Track, scoreTrack query t = t.popularity.getD 0
        + (if artistSubstring query t then 50 else 0)
        + (if pyNormalize t.name = pyNormalize query then 50 else 0))
    ∧ List.Perm (rankPool query pool) pool
    ∧ List.Sorted (fun x y => scoreTrack query y ≤ scoreTrack query x) (rankPool query pool)
    ∧ List.Pairwise (fun x y => scoreTrack query x.2 = scoreTrack query y.2 → x.1 ≤ y.1)
        (stableSortEnum (scoreTrack query) pool)
    ∧ scoreTrack query b < scoreTrack query a
    ∧ rankPool query [b, a] = [a, b] := by
  have hlt : scoreTrack query b < scoreTrack query a := by
    by_cases hn : pyNormalize a.name = pyNormalize query <;>
      simp [scoreTrack, ha, hb, hbn, hpop, hn]
  refine ⟨?_, stableSortDesc_perm _ _, stableSortDesc_sorted _ _,
      stableSortEnum_stable _ _, hlt, ?_⟩
  · intro t
    simp only [scoreTrack]
    ring
  · have hrel : ¬ keyDescRel (scoreTrack query) (0, b) (1, a) := by
      rintro (h | ⟨h, _⟩)
      · exact absurd (h.trans hlt) (lt_irrefl _)
      · exact absurd h (ne_of_lt hlt)
    simp [rankPool, stableSortDesc, stableSortEnum, List.enum, List.enumFrom,
      List.insertionSort, List.orderedInsert, hrel]

/-- Witness for C4 at a concrete query and pool. -/
theorem c4_scoring_witness :
    scoreTrack "adele songs" trackWitnessB < scoreTrack "adele songs" trackWitnessA
    ∧ rankPool "adele songs" [trackWitnessB, trackWitnessA] =
        [trackWitnessA, trackWitnessB] :=
  ⟨(c4_scoring "adele songs" [] trackWitnessA trackWitnessB
      (by decide) (by decide) (by decide) (by decide)).2.2.2.2.1,
   (c4_scoring "adele songs" [] trackWitnessA trackWitnessB
      (by decide) (by decide) (by decide) (by decide)).2.2.2.2.2⟩

/-- C4 counterexample: both tracks have popularity 50 and only
`trackArtistHit` has an artist-substring match, yet `trackTitleHit`
receives the exact-title bonus, the scores tie, and the stable sort keeps
`trackTitleHit` first — the artist-matching track does *not* outrank the
other. -/
theorem c4_counterexample :
    trackArtistHit.popularity.getD 0 = trackTitleHit.popularity.getD 0
    ∧ artistSubstring "adele hello" trackArtistHit = true
    ∧ artistSubstring "adele hello" trackTitleHit = false
    ∧ rankPool "adele hello" [trackTitleHit, trackArtistHit] =
        [trackTitleHit, trackArtistHit] := by decide

/-! ### Claim C1: connected-playlist short circuit -/

/-- C1.  If some persisted connected playlist's lower-cased name equals
the trimmed lower-cased resolved query, the dispatcher answers mode
"playlist" for the first such playlist, with an empty track-search trace:
the check precedes any track search, and the outcome is independent of
the candidate pools (which are universally quantified in `env`). -/
theorem c1_playlist_short_circuit (env : PlayEnv) (intent : Intent) (message : String)
    (p : ConnectedPlaylist) (hp : p ∈ env.connected)
    (hname : lowerL p.name.toList = trimL (lowerL (resolvePlayQuery intent message).toList)) :
    ∃ q ∈ env.connected,
      lowerL q.name.toList = trimL (lowerL (resolvePlayQuery intent message).toList)
      ∧ playDispatch env intent message = ⟨.playlistMode q, []⟩ := by
  have hfind : (connectedLookup env.connected (resolvePlayQuery intent message)).isSome := by
    rw [connectedLookup, List.find?_isSome]
    refine ⟨p, hp, ?_⟩
    simp only [beq_iff_eq]
    exact hname
  obtain ⟨q, hq⟩ := Option.isSome_iff_exists.mp hfind
  refine ⟨q, List.mem_of_find?_eq_some hq, ?_, ?_⟩
  · have h2 := List.find?_some hq
    simp only [beq_iff_eq] at h2
    exact h2
  · simp [playDispatch, hq]

/-- Witness for C1: a connected playlist named "My Mix" and the resolved
query "my mix". -/
theorem c1_playlist_short_circuit_witness :
    ∃ q ∈ (PlayEnv.mk [⟨"My Mix", "spotify:playlist:1"⟩] [] none []).connected,
      lowerL q.name.toList =
        trimL (lowerL (resolvePlayQuery ⟨"play_music", "my mix", none⟩ "zzz").toList)
      ∧ playDispatch (PlayEnv.mk [⟨"My Mix", "spotify:playlist:1"⟩] [] none [])
          ⟨"play_music", "my mix", none⟩ "zzz" =
          ⟨.playlistMode q, []⟩ :=
  c1_playlist_short_circuit (PlayEnv.mk [⟨"My Mix", "spotify:playlist:1"⟩] [] none [])
    ⟨"play_music", "my mix", none⟩ "zzz" ⟨"My Mix", "spotify:playlist:1"⟩
    (by decide) (by decide)

/-! ### Claim C5: artist mode -/

/-- C5.  When no connected playlist matches, the search pool is
non-empty, a word of the top-ranked track's primary artist occurs among
the query's words, no word of its name does, and the mood/genre flag is
falsy, the dispatcher chooses artist mode for the top track's primary
artist — with only the single original track search in the trace (the
playlist/diverse-pool branches cannot fire). -/
theorem c5_artist_mode (env : PlayEnv) (intent : Intent) (message : String)
    (track : Track) (rest : List Track)
    (hconn : connectedLookup env.connected (resolvePlayQuery intent message) = none)
    (hsort : rankPool (resolvePlayQuery intent message) env.searchResults = track :: rest)
    (hartist : artistNamedB (resolvePlayQuery intent message) track = true)
    (hname : titleNamedB (resolvePlayQuery intent message) track = false)
    (hmood : intent.isMoodOrGenre.getD false = false) :
    playDispatch env intent message =
      ⟨.artistMode (primaryArtistName track) track, [resolvePlayQuery intent message]⟩ := by
  simp [playDispatch, hconn, hsort, hartist, hname, hmood]

/-- Witness for C5: query "newjeans", one candidate by NewJeans. -/
theorem c5_artist_mode_witness :
    playDispatch (PlayEnv.mk [] [trackNewJeans] none [])
        ⟨"play_music", "newjeans", none⟩ "play newjeans" =
      ⟨.artistMode (primaryArtistName trackNewJeans) trackNewJeans,
        [resolvePlayQuery ⟨"play_music", "newjeans", none⟩ "play newjeans"]⟩ :=
  c5_artist_mode (PlayEnv.mk [] [trackNewJeans] none [])
    ⟨"play_music", "newjeans", none⟩ "play newjeans" trackNewJeans []
    (by decide) (by decide) (by decide) (by decide) (by decide)

/-! ### Claim C6: pool widening and the diverse-pool rule -/

/-- C6.  When no connected playlist matches, no artist is named by the
top-ranked track, the intent is not mood/genre-flagged and the playlist
lookup yields nothing, the dispatcher performs exactly the two track
searches `query` and `query ++ " mix"`, merges the widening results into
the pool deduplicated by id, dispatches multi with the merged pool iff it
spans at least two distinct artist names, and otherwise plays the top
track. -/
theorem c6_widening (env : PlayEnv) (intent : Intent) (message : String)
    (track : Track) (rest : List Track)
    (hconn : connectedLookup env.connected (resolvePlayQuery intent message) = none)
    (hsort : rankPool (resolvePlayQuery intent message) env.searchResults = track :: rest)
    (hartist : artistNamedB (resolvePlayQuery intent message) track = false)
    (hmood : intent.isMoodOrGenre.getD false = false)
    (hlookup : env.playlistSearch.getD [] = []) :
    (playDispatch env intent message).trackSearches =
      [resolvePlayQuery intent message, resolvePlayQuery intent message ++ " mix"]
    ∧ ((playDispatch env intent message).outcome =
        .multiPool (dedupMerge (track :: rest) env.mixResults)
        ↔ 2 ≤ distinctArtists (dedupMerge (track :: rest) env.mixResults))
    ∧ (¬ 2 ≤ distinctArtists (dedupMerge (track :: rest) env.mixResults) →
        (playDispatch env intent message).outcome = .trackMode track) := by
  by_cases hdiv : 2 ≤ distinctArtists (dedupMerge (track :: rest) env.mixResults) <;>
    simp [playDispatch, hconn, hsort, hartist, hmood, hlookup, hdiv]

/-- Witness for C6: a widening search that brings in a second artist. -/
theorem c6_widening_witness :
    (playDispatch (PlayEnv.mk [] [trackMixA] (some []) [trackMixB])
        ⟨"play_music", "krnb", none⟩ "play krnb").trackSearches =
      [resolvePlayQuery ⟨"play_music", "krnb", none⟩ "play krnb",
        resolvePlayQuery ⟨"play_music", "krnb", none⟩ "play krnb" ++ " mix"]
    ∧ ((playDispatch (PlayEnv.mk [] [trackMixA] (some []) [trackMixB])
        ⟨"play_music", "krnb", none⟩ "play krnb").outcome =
        .multiPool (dedupMerge [trackMixA] [trackMixB])
        ↔ 2 ≤ distinctArtists (dedupMerge [trackMixA] [trackMixB])) :=
  ⟨(c6_widening (PlayEnv.mk [] [trackMixA] (some []) [trackMixB])
      ⟨"play_music", "krnb", none⟩ "play krnb" trackMixA []
      (by decide) (by decide) (by decide) (by decide) (by decide)).1,
   (c6_widening (PlayEnv.mk [] [trackMixA] (some []) [trackMixB])
      ⟨"play_music", "krnb", none⟩ "play krnb" trackMixA []
      (by decide) (by decide) (by decide) (by decide) (by decide)).2.1⟩

end SpotifyBot
